import Mathlib

/-!
Verification development for the documentation-site search overlay
(`src/unnamed/part_000`, second `StaticSearch` component, and
`src/components/layout/dynamic/Search.tsx`).  The data model, the result
categorisation, the debounced query dispatch and the keyboard-driven
navigation state machine are embedded shallowly below, and theorems check
the specified properties against the embedding.
-/

namespace ApiDocs

/-- A search hit, transcribed from the `SearchResult` interface of
`src/unnamed/part_000` (lines 494-504); optional fields default to `none`. -/
structure SearchResult where
  objectID : Option String := none
  type : String
  library : String
  page : String
  title : String
  secondaryTitle : Option String := none
  tertiaryTitle : Option String := none
  description : String
  href : String
deriving DecidableEq, Repr

/-- Insert one element into a keyed bucket list: append the element to the
bucket of key `k` when that bucket exists, otherwise add a fresh bucket at
the end.  This is the single step of the `lodash.groupby` model. -/
def insertGrouped [DecidableEq κ] (k : κ) (x : α) : List (κ × List α) → List (κ × List α)
  | [] => [(k, [x])]
  | g :: rest => if g.1 = k then (g.1, g.2 ++ [x]) :: rest else g :: insertGrouped k x rest

/-- Model of `lodash.groupby` as used by the source: buckets keyed in
first-seen order, each bucket keeping the original relative order of its
elements. -/
def groupByKey [DecidableEq κ] (key : α → κ) (l : List α) : List (κ × List α) :=
  l.foldl (fun acc x => insertGrouped (key x) x acc) []

/-- All bucket contents of a keyed bucket list, in bucket order. -/
def bucketsFlatten (gs : List (κ × List α)) : List α :=
  (gs.map Prod.snd).flatten

/-- The keys of a keyed bucket list, in bucket order. -/
def keysOf (gs : List (κ × List α)) : List κ :=
  gs.map Prod.fst

@[simp] theorem keysOf_nil : keysOf ([] : List (κ × List α)) = [] := rfl

@[simp] theorem keysOf_cons (g : κ × List α) (gs : List (κ × List α)) :
    keysOf (g :: gs) = g.1 :: keysOf gs := rfl

@[simp] theorem bucketsFlatten_nil : bucketsFlatten ([] : List (κ × List α)) = [] := rfl

@[simp] theorem bucketsFlatten_cons (g : κ × List α) (gs : List (κ × List α)) :
    bucketsFlatten (g :: gs) = g.2 ++ bucketsFlatten gs := by
  simp [bucketsFlatten]

theorem insertGrouped_flatten_perm [DecidableEq κ] (k : κ) (x : α) :
    ∀ gs : List (κ × List α),
      (bucketsFlatten (insertGrouped k x gs)).Perm (bucketsFlatten gs ++ [x])
  | [] => by simp [insertGrouped, bucketsFlatten]
  | g :: rest => by
    by_cases h : g.1 = k
    · rw [insertGrouped, if_pos h, bucketsFlatten_cons, bucketsFlatten_cons,
        List.append_assoc, List.append_assoc]
      exact List.Perm.append_left g.2 List.perm_append_comm
    · rw [insertGrouped, if_neg h, bucketsFlatten_cons, bucketsFlatten_cons, List.append_assoc]
      exact List.Perm.append_left g.2 (insertGrouped_flatten_perm k x rest)

theorem groupByKey_fold_perm [DecidableEq κ] (key : α → κ) :
    ∀ (l : List α) (acc : List (κ × List α)),
      (bucketsFlatten (l.foldl (fun a x => insertGrouped (key x) x a) acc)).Perm
        (bucketsFlatten acc ++ l)
  | [], acc => by simp
  | x :: xs, acc => by
    have ih := groupByKey_fold_perm key xs (insertGrouped (key x) x acc)
    have h1 := (insertGrouped_flatten_perm (key x) x acc).append_right xs
    rw [List.foldl_cons]
    refine ih.trans (h1.trans ?_)
    rw [List.append_assoc, List.singleton_append]

theorem groupByKey_flatten_perm [DecidableEq κ] (key : α → κ) (l : List α) :
    (bucketsFlatten (groupByKey key l)).Perm l := by
  simpa using groupByKey_fold_perm key l []

theorem insertGrouped_keysOf [DecidableEq κ] (k : κ) (x : α) :
    ∀ gs : List (κ × List α),
      keysOf (insertGrouped k x gs) = if k ∈ keysOf gs then keysOf gs else keysOf gs ++ [k]
  | [] => by simp [insertGrouped]
  | g :: rest => by
    by_cases h : g.1 = k
    · rw [insertGrouped, if_pos h, keysOf_cons, keysOf_cons,
        if_pos (List.mem_cons.2 (Or.inl h.symm))]
    · rw [insertGrouped, if_neg h, keysOf_cons, keysOf_cons, insertGrouped_keysOf k x rest]
      by_cases hm : k ∈ keysOf rest
      · rw [if_pos hm, if_pos (List.mem_cons.2 (Or.inr hm))]
      · rw [if_neg hm, if_neg ?_, List.cons_append]
        intro hc
        rcases List.mem_cons.1 hc with h1 | h1
        · exact h h1.symm
        · exact hm h1

theorem insertGrouped_keysOf_nodup [DecidableEq κ] (k : κ) (x : α) (gs : List (κ × List α))
    (h : (keysOf gs).Nodup) : (keysOf (insertGrouped k x gs)).Nodup := by
  rw [insertGrouped_keysOf]
  by_cases hm : k ∈ keysOf gs
  · rwa [if_pos hm]
  · rw [if_neg hm]
    refine List.Nodup.append h (List.nodup_singleton k) ?_
    intro a ha hb
    rw [List.mem_singleton] at hb
    exact hm (hb ▸ ha)

theorem groupByKey_keysOf_nodup [DecidableEq κ] (key : α → κ) (l : List α) :
    (keysOf (groupByKey key l)).Nodup := by
  suffices h : ∀ (l : List α) (acc : List (κ × List α)), (keysOf acc).Nodup →
      (keysOf (l.foldl (fun a x => insertGrouped (key x) x a) acc)).Nodup by
    simpa [groupByKey] using h l [] (by simp)
  intro l
  induction l with
  | nil => intro acc h; simpa using h
  | cons x xs ih =>
      intro acc h
      simpa [List.foldl_cons] using ih _ (insertGrouped_keysOf_nodup _ _ _ h)

/-- Every bucket of the list is labelled by the common key of its elements. -/
def GoodBuckets (key : α → κ) (gs : List (κ × List α)) : Prop :=
  ∀ g ∈ gs, ∀ y ∈ g.2, key y = g.1

theorem insertGrouped_good [DecidableEq κ] {key : α → κ} {k : κ} {x : α} (hx : key x = k) :
    ∀ {gs : List (κ × List α)}, GoodBuckets key gs → GoodBuckets key (insertGrouped k x gs)
  | [], _ => by
    intro g hgmem y hy
    rw [insertGrouped] at hgmem
    rcases List.mem_singleton.1 hgmem with rfl
    rcases List.mem_singleton.1 hy with rfl
    exact hx
  | g0 :: rest, hg => by
    intro g hgmem y hy
    by_cases h : g0.1 = k
    · rw [insertGrouped, if_pos h] at hgmem
      rcases List.mem_cons.1 hgmem with rfl | h1
      · rcases List.mem_append.1 hy with h2 | h2
        · exact hg g0 (List.mem_cons_self g0 rest) y h2
        · rcases List.mem_singleton.1 h2 with rfl
          exact hx.trans h.symm
      · exact hg g (List.mem_cons_of_mem g0 h1) y hy
    · rw [insertGrouped, if_neg h] at hgmem
      rcases List.mem_cons.1 hgmem with rfl | h1
      · exact hg g (List.mem_cons_self g rest) y hy
      · exact insertGrouped_good hx (fun g2 hg2 => hg g2 (List.mem_cons_of_mem g0 hg2)) g h1 y hy

theorem groupByKey_good [DecidableEq κ] (key : α → κ) (l : List α) :
    GoodBuckets key (groupByKey key l) := by
  suffices h : ∀ (l : List α) (acc : List (κ × List α)), GoodBuckets key acc →
      GoodBuckets key (l.foldl (fun a x => insertGrouped (key x) x a) acc) by
    refine h l [] ?_
    intro g hg
    simp at hg
  intro l
  induction l with
  | nil => intro acc h; simpa using h
  | cons x xs ih => intro acc h; exact ih _ (insertGrouped_good rfl h)

theorem mem_of_mem_bucket [DecidableEq κ] {key : α → κ} {l : List α} {g : κ × List α}
    (hg : g ∈ groupByKey key l) {y : α} (hy : y ∈ g.2) : y ∈ l := by
  refine (groupByKey_flatten_perm key l).mem_iff.1 ?_
  rw [bucketsFlatten, List.mem_flatten]
  exact ⟨g.2, List.mem_map.2 ⟨g, hg, rfl⟩, hy⟩

/-- Result categorisation, transcribed from the `categorisedResults` memo of
the source (part_000 lines 1097-1113): group the flat result list by
`library`, then group each library bucket by `page`. -/
def categorise (rs : List SearchResult) : List (String × List (String × List SearchResult)) :=
  (groupByKey (fun r => r.library) rs).map
    (fun g => (g.1, groupByKey (fun r => r.page) g.2))

/-- Modelled from the spec: the helper `getDeepValues` is imported from
`src/utils/getDeepValues`, which is not present under `src/`; per the spec
it flattens the nested grouping by iterating groups in key order, then
categories in key order, then results in bucket order. -/
def getDeepValues (c : List (String × List (String × List SearchResult))) : List SearchResult :=
  (c.map (fun g => bucketsFlatten g.2)).flatten

/-- Transcription of `flattenSearchResults` (part_000 lines 894-896). -/
def flattenSearchResults (c : List (String × List (String × List SearchResult))) :
    List SearchResult :=
  getDeepValues c

/-- The (library, page) pair a result is grouped under. -/
def resultKey (r : SearchResult) : String × String := (r.library, r.page)

/-- A list is chunked by (library, page): it is a concatenation of blocks,
each block carrying a single (library, page) key, and no key owns two
distinct blocks, so equal-key results sit contiguously. -/
def ChunkedBy (l : List SearchResult) : Prop :=
  ∃ chunks : List ((String × String) × List SearchResult),
    l = (chunks.map Prod.snd).flatten ∧
    (chunks.map Prod.fst).Nodup ∧
    ∀ c ∈ chunks, ∀ r ∈ c.2, resultKey r = c.1

theorem flatten_perm_of_forall2 {l1 l2 : List (List α)} (h : List.Forall₂ List.Perm l1 l2) :
    l1.flatten.Perm l2.flatten := by
  induction h with
  | nil => exact List.Perm.refl _
  | cons hab hrest ih => simpa using hab.append ih

theorem forall2_perm_map {f g : β → List α} (h : ∀ b, (f b).Perm (g b)) :
    ∀ L : List β, List.Forall₂ List.Perm (L.map f) (L.map g)
  | [] => List.Forall₂.nil
  | b :: L => List.Forall₂.cons (h b) (forall2_perm_map h L)

theorem flattenSearchResults_categorise_perm (l : List SearchResult) :
    (flattenSearchResults (categorise l)).Perm l := by
  have h1 : flattenSearchResults (categorise l)
      = ((groupByKey (fun r => r.library) l).map
          (fun g => bucketsFlatten (groupByKey (fun r => r.page) g.2))).flatten := by
    simp only [flattenSearchResults, getDeepValues, categorise, List.map_map]
    rfl
  rw [h1]
  have h2 := flatten_perm_of_forall2
    (forall2_perm_map (fun g : String × List SearchResult =>
      groupByKey_flatten_perm (fun r => r.page) g.2) (groupByKey (fun r => r.library) l))
  refine h2.trans ?_
  exact groupByKey_flatten_perm (fun r => r.library) l

/-- The chunk decomposition of the categorised-and-flattened list: one chunk
per (library, page) bucket, in traversal order. -/
def categoriseChunks (l : List SearchResult) :
    List ((String × String) × List SearchResult) :=
  ((groupByKey (fun r => r.library) l).map
    (fun g => (groupByKey (fun r => r.page) g.2).map (fun pg => ((g.1, pg.1), pg.2)))).flatten

theorem categoriseChunks_flatten (l : List SearchResult) :
    flattenSearchResults (categorise l) = ((categoriseChunks l).map Prod.snd).flatten := by
  rw [categoriseChunks, List.map_flatten, List.map_map, List.flatten_flatten, List.map_map]
  have h1 : flattenSearchResults (categorise l)
      = ((groupByKey (fun r => r.library) l).map
          (fun g => bucketsFlatten (groupByKey (fun r => r.page) g.2))).flatten := by
    simp only [flattenSearchResults, getDeepValues, categorise, List.map_map]
    rfl
  rw [h1]
  congr 1
  refine List.map_congr_left ?_
  intro g hg
  show bucketsFlatten (groupByKey (fun r => r.page) g.2)
      = (((groupByKey (fun r => r.page) g.2).map
          (fun pg => ((g.1, pg.1), pg.2))).map Prod.snd).flatten
  rw [List.map_map]
  rfl

theorem categoriseChunks_keys_nodup (l : List SearchResult) :
    ((categoriseChunks l).map Prod.fst).Nodup := by
  rw [categoriseChunks, List.map_flatten, List.map_map]
  rw [List.nodup_flatten]
  constructor
  · intro s hs
    rcases List.mem_map.1 hs with ⟨g, hg, rfl⟩
    show (List.map Prod.fst ((groupByKey (fun r => r.page) g.2).map
        (fun pg => ((g.1, pg.1), pg.2)))).Nodup
    rw [List.map_map]
    have h1 : (Prod.fst ∘ fun pg : String × List SearchResult => ((g.1, pg.1), pg.2))
        = (fun k : String => (g.1, k)) ∘ Prod.fst := rfl
    rw [h1, ← List.map_map]
    refine List.Nodup.map ?_ ?_
    · intro a b hab
      simpa using hab
    · have h2 := groupByKey_keysOf_nodup (fun r => r.page) g.2
      rwa [keysOf] at h2
  · have h2 := groupByKey_keysOf_nodup (fun r => r.library) l
    rw [keysOf] at h2
    have h3 : (groupByKey (fun r => r.library) l).Pairwise (fun a b => a.1 ≠ b.1) :=
      List.pairwise_map.1 h2
    rw [List.pairwise_map]
    refine h3.imp ?_
    intro a b hab x hxa hxb
    rcases List.mem_map.1 hxa with ⟨ca, hca, rfl⟩
    rcases List.mem_map.1 hxb with ⟨cb, hcb, hx⟩
    rcases List.mem_map.1 hca with ⟨pa, hpa, rfl⟩
    rcases List.mem_map.1 hcb with ⟨pb, hpb, rfl⟩
    exact hab (congrArg Prod.fst hx).symm

theorem categoriseChunks_key (l : List SearchResult) :
    ∀ c ∈ categoriseChunks l, ∀ r ∈ c.2, resultKey r = c.1 := by
  intro c hc r hr
  rw [categoriseChunks, List.mem_flatten] at hc
  rcases hc with ⟨inner, hinner, hcin⟩
  rcases List.mem_map.1 hinner with ⟨g, hg, rfl⟩
  rcases List.mem_map.1 hcin with ⟨pg, hpg, rfl⟩
  have hpage : r.page = pg.1 := groupByKey_good (fun r => r.page) g.2 pg hpg r hr
  have hmem : r ∈ g.2 := mem_of_mem_bucket hpg hr
  have hlib : r.library = g.1 := groupByKey_good (fun r => r.library) l g hg r hmem
  rw [resultKey, hlib, hpage]

/-- C2: flattening the categorised results of any non-empty input list yields
a permutation of the input in which results appear contiguously by
(library, page), and repeated application to the same input yields the same
output (the embedding is a pure function, so stability is definitional). -/
theorem c2_flatten_categorise (l : List SearchResult) (h : l ≠ []) :
    (flattenSearchResults (categorise l)).Perm l ∧
    ChunkedBy (flattenSearchResults (categorise l)) ∧
    flattenSearchResults (categorise l) = flattenSearchResults (categorise l) :=
  ⟨flattenSearchResults_categorise_perm l,
   ⟨categoriseChunks l, categoriseChunks_flatten l, categoriseChunks_keys_nodup l,
     categoriseChunks_key l⟩, rfl⟩

/-- One sample result per (library, page) run used by the C2 witness. -/
def w1 : SearchResult :=
  { type := "page", library := "library", page := "Animation", title := "Animation",
    description := "d1", href := "/api/animation/" }

def w2 : SearchResult :=
  { type := "section", library := "library", page := "Scroll", title := "Content",
    description := "d2", href := "/scroll/#content" }

def w3 : SearchResult :=
  { type := "section", library := "library", page := "Animation", title := "Transitions",
    description := "d3", href := "/scroll/#transitions" }

theorem c2_witness :
    ([w1, w2, w3] : List SearchResult) ≠ [] ∧
    ((flattenSearchResults (categorise [w1, w2, w3])).Perm [w1, w2, w3] ∧
      ChunkedBy (flattenSearchResults (categorise [w1, w2, w3])) ∧
      flattenSearchResults (categorise [w1, w2, w3])
        = flattenSearchResults (categorise [w1, w2, w3])) :=
  ⟨by simp, c2_flatten_categorise [w1, w2, w3] (by simp)⟩

/-! ### Selection cursor

The `useIndexItem` hook lives in `src/hooks/useIndex`, which is not present
under `src/`; its operations are modelled from the spec (section 4.1). -/

/-- Modelled from the spec: `next()` of the selection cursor — for a list of
length `n > 0` the index becomes `min (index + 1) (n - 1)` (non-wrapping),
and for `n = 0` the index is unchanged. -/
def cursorNext (n i : Nat) : Nat :=
  if 0 < n then min (i + 1) (n - 1) else i

/-- Modelled from the spec: `previous()` of the selection cursor — the index
becomes `max (index - 1) 0`, which on `Nat` is truncated subtraction. -/
def cursorPrevious (i : Nat) : Nat := i - 1

/-- Modelled from the spec: `set(j)` of the selection cursor — the index is
clamped into `[0, n - 1]`; a silent no-op when `n = 0`. -/
def cursorSet (n i j : Nat) : Nat :=
  if 0 < n then min j (n - 1) else i

/-! ### The search overlay state machine

Shallow embedding of the second `StaticSearch` component of
`src/unnamed/part_000` (lines 1091-1307): component state, event handlers,
and the two `useEffect` blocks that reset cursors, together with the
debounced Algolia dispatch modelled as an explicit pending timer. -/

/-- Environment read by the component: `isMotion()` from `src/utils/env` and
the page name parsed from `document.title` by `getPage`. -/
structure Env where
  isMotionEnv : Bool
  pageTitle : Option String
deriving DecidableEq, Repr

/-- The static library suggestions (part_000 lines 805-841). -/
def librarySuggestedResults : List SearchResult :=
  [{ type := "property", library := "library", page := "Frame", title := "animate",
     secondaryTitle := some ("AnimationControls | TargetAndTransition | VariantLabels | boolean"),
     description := "Values to animate to, variant label(s), or AnimationControls.",
     href := "/api/frame/#animationprops.animate" },
   { type := "property", library := "library", page := "Frame", title := "drag",
     secondaryTitle := some ("boolean | \"x\" | \"y\""),
     description := "Enable dragging for this element. Set to false by default. Set true to drag in both directions. Set \"x\" or \"y\" to only drag in a specific direction.",
     href := "/api/frame/#draggableprops.drag" },
   { type := "page", library := "library", page := "Scroll", title := "Scroll",
     description := "Create scrollable areas for desktop or mobile, with mouse and touch-based input support.",
     href := "/api/scroll/" },
   { type := "page", library := "library", page := "Property Controls", title := "Property Controls",
     description := "Add controls to your components to allow customization via the Framer interface.",
     href := "/api/property-controls/" }]

/-- The static motion suggestions (part_000 lines 843-880). -/
def motionSuggestedResults : List SearchResult :=
  [{ type := "page", library := "motion", page := "Motion components", title := "Motion components",
     description := "Motion components are DOM primitives optimised for 60fps animation and gestures.",
     href := "/api/motion/component/" },
   { type := "page", library := "motion", page := "MotionValue", title := "MotionValue",
     description := "MotionValues track the state and velocity of animating values.",
     href := "/api/motion/motionvalue/" },
   { type := "subsection", library := "motion", page := "Animation", title := "Scale correction",
     secondaryTitle := some ("Layout animations"),
     description := "All layout animations are performed using the transform property, resulting in smooth framerates.",
     href := "/api/motion/animation/#scale-correction" },
   { type := "function", library := "motion", page := "MotionValue", title := "useSpring",
     secondaryTitle := some ("MotionValue"), tertiaryTitle := some ("source, config"),
     description := "Creates a MotionValue that, when set, will use a spring animation to animate to its new state.",
     href := "/api/motion/motionvalue/#usespring" }]

/-- `suggestedResults` memo of the component: the static list picked by
`isMotion()` (part_000 line 1115). -/
def suggestedResults (env : Env) : List SearchResult :=
  if env.isMotionEnv then motionSuggestedResults else librarySuggestedResults

/-- The Algolia query payload sent by `search` (part_000 lines 1125-1136). -/
structure SearchRequest where
  query : String
  hitsPerPage : Nat
  optionalFilters : List String
deriving DecidableEq, Repr

/-- Builds the request exactly as the debounced `search` callback does:
`hitsPerPage` 10, a library filter from `isMotion()`, and a page filter
when `getPage()` yields a page name. -/
def mkRequest (env : Env) (value : String) : SearchRequest :=
  let libFilter := String.append ("library:") (if env.isMotionEnv then ("motion") else ("library"))
  let filters := match env.pageTitle with
    | some page => [libFilter, String.append ("page:") page]
    | none => [libFilter]
  { query := value, hitsPerPage := 10, optionalFilters := filters }

/-- Observable effects of the component: network dispatches, navigations
(assignments to `window.location.href`) and diagnostics (`console.error`). -/
inductive Out
  | request (r : SearchRequest)
  | navigate (href : String)
  | reportError
deriving DecidableEq, Repr

/-- Component state: the controlled input `value`, `isOpen`, the stored
`results` (`none` models the `null` reset), the two `useIndexItem` cursor
indices, and the pending debounce timer (deadline, query) if any. -/
structure SearchState where
  value : String
  isOpen : Bool
  results : Option (List SearchResult)
  resultIndex : Nat
  suggestedIndex : Nat
  pending : Option (Nat × String)
deriving DecidableEq, Repr

/-- The freshly mounted component. -/
def initialState : SearchState :=
  { value := "", isOpen := false, results := none, resultIndex := 0,
    suggestedIndex := 0, pending := none }

/-- `categorisedResults` memo (part_000 lines 1097-1113): `{}` when results
is `null`. -/
def categorisedResultsOf (s : SearchState) : List (String × List (String × List SearchResult)) :=
  match s.results with
  | some rs => categorise rs
  | none => []

/-- `indexedResults` memo (part_000 line 1114). -/
def indexedResults (s : SearchState) : List SearchResult :=
  flattenSearchResults (categorisedResultsOf s)

/-- `isSuggesting` memo (part_000 line 1120): no results stored, or zero
results stored. -/
def isSuggesting (s : SearchState) : Bool :=
  match s.results with
  | none => true
  | some rs => rs.isEmpty

/-- `isEmpty` memo (part_000 line 1121): suggesting although a response
array is present, i.e. a non-empty query resolved to zero results. -/
def isEmpty (s : SearchState) : Bool :=
  isSuggesting s && s.results.isSome

/-- The three presentation modes of the spec. -/
inductive Mode
  | suggesting
  | showing
  | empty
deriving DecidableEq, Repr

/-- The presentation mode realised by the component state. -/
def modeOf (s : SearchState) : Mode :=
  if isSuggesting s then (if isEmpty s then Mode.empty else Mode.suggesting) else Mode.showing

/-- Placeholder for the JavaScript `undefined` read when a list is indexed
out of range; never reached on the traces the theorems use. -/
def defaultResult : SearchResult :=
  { type := "", library := "", page := "", title := "", description := "", href := "" }

/-- `selectedResult` of `useIndexItem(indexedResults)`: the element at the
results cursor. -/
def selectedResult (s : SearchState) : SearchResult :=
  (indexedResults s).getD s.resultIndex defaultResult

/-- `selectedSuggestedResult` of `useIndexItem(suggestedResults)`. -/
def selectedSuggestedResult (env : Env) (s : SearchState) : SearchResult :=
  (suggestedResults env).getD s.suggestedIndex defaultResult

/-- The debounce window of the `search` callback (part_000 line 1145). -/
def debounceWait : Nat := 200

/-- Keyboard event payload: key name plus modifier flags. -/
structure KeyEvent where
  key : String
  metaKey : Bool := false
  ctrlKey : Bool := false
  altKey : Bool := false
deriving DecidableEq, Repr

/-- The `/^\w$/` test of `handleKey`: a single ASCII letter, digit or
underscore. -/
def isWordChar (s : String) : Bool :=
  s.length == 1 && s.toList.all (fun c => c.isAlphanum || c == '_')

/-- Input events the component reacts to.  `change` and `key` carry the
current time for debounce bookkeeping; `timer` models time passing up to
`now` (firing the debounce timer if its deadline has been reached);
`response` models a network response arriving (`Except.error` a transport
failure); `key` also carries whether `document.activeElement` is the body
or `null`. -/
inductive Event
  | change (now : Nat) (value : String)
  | focus
  | clickOutside
  | key (now : Nat) (ke : KeyEvent) (activeElementFree : Bool)
  | timer (now : Nat)
  | response (outcome : Except Unit (List SearchResult))
deriving Repr

/-- `handleChange` (part_000 lines 1149-1163): record the value; a non-empty
value (re)schedules the debounced search, an empty value clears the stored
results and cancels the pending timer. -/
def handleChange (now : Nat) (v : String) (s : SearchState) : SearchState :=
  let s1 := { s with value := v }
  if v ≠ "" then { s1 with pending := some (now + debounceWait, v) }
  else { s1 with results := none, pending := none }

/-- One event handled as the source handlers do, before effects run.
Returns the updated state and the emitted effects. -/
def handleEvent (env : Env) (s : SearchState) : Event → SearchState × List Out
  | Event.change now v => (handleChange now v s, [])
  | Event.focus => ({ s with isOpen := true }, [])
  | Event.clickOutside => ({ s with isOpen := false }, [])
  | Event.timer now =>
      match s.pending with
      | some dq =>
          if dq.1 ≤ now then ({ s with pending := none }, [Out.request (mkRequest env dq.2)])
          else (s, [])
      | none => (s, [])
  | Event.response (Except.ok hits) => ({ s with results := some hits }, [])
  | Event.response (Except.error _) => ({ s with results := some [] }, [Out.reportError])
  | Event.key now ke activeElementFree =>
      if s.isOpen then
        if ke.key = "ArrowUp" then
          if isSuggesting s then
            ({ s with suggestedIndex := cursorPrevious s.suggestedIndex }, [])
          else ({ s with resultIndex := cursorPrevious s.resultIndex }, [])
        else if ke.key = "ArrowDown" then
          if isSuggesting s then
            ({ s with suggestedIndex :=
                cursorNext (suggestedResults env).length s.suggestedIndex }, [])
          else ({ s with resultIndex := cursorNext (indexedResults s).length s.resultIndex }, [])
        else if ke.key = "Escape" then ({ s with isOpen := false }, [])
        else if ke.key = "Enter" then
          ({ s with isOpen := false },
           [Out.navigate (if isSuggesting s then (selectedSuggestedResult env s).href
             else (selectedResult s).href)])
        else (s, [])
      else
        if activeElementFree && isWordChar ke.key
            && !ke.metaKey && !ke.ctrlKey && !ke.altKey then
          ({ handleChange now ke.key s with isOpen := true }, [])
        else (s, [])

/-- The state mutation of the `useEffect` on `[isOpen]` when the overlay has
just closed (part_000 lines 1230-1241): `setResult(0)` and
`setSuggestedResult(0)` through the cursor `set` operation. -/
def closeEffect (env : Env) (s : SearchState) : SearchState :=
  { s with resultIndex := cursorSet (indexedResults s).length s.resultIndex 0,
           suggestedIndex := cursorSet (suggestedResults env).length s.suggestedIndex 0 }

/-- The `useEffect` on `[isSuggesting]` (part_000 lines 1243-1249): when the
mode flips, reset the cursor of the list that became inactive. -/
def suggestingEffect (env : Env) (s : SearchState) : SearchState :=
  if isSuggesting s then
    { s with resultIndex := cursorSet (indexedResults s).length s.resultIndex 0 }
  else { s with suggestedIndex := cursorSet (suggestedResults env).length s.suggestedIndex 0 }

/-- The `useEffect` on `[isOpen]` as a pass over the committed state: it runs
exactly when `isOpen` changed, and only its closed branch mutates state
(the open branch just focuses the input). -/
def openEffectPass (env : Env) (pre post : SearchState) : SearchState :=
  if pre.isOpen ≠ post.isOpen then (if post.isOpen then post else closeEffect env post) else post

/-- Runs the two effects after a commit, exactly when their dependency
changed between the previous state `pre` and the committed state `post`
(React compares dependencies between renders); the effects appear in their
declaration order. -/
def runEffects (env : Env) (pre post : SearchState) : SearchState :=
  if isSuggesting pre ≠ isSuggesting post then suggestingEffect env (openEffectPass env pre post)
  else openEffectPass env pre post

/-- One full event step: handler followed by the effects. -/
def step (env : Env) (s : SearchState) (e : Event) : SearchState × List Out :=
  let h := handleEvent env s e
  (runEffects env s h.1, h.2)

/-- A run over a list of events, collecting every emitted effect. -/
def run (env : Env) (s : SearchState) : List Event → SearchState × List Out
  | [] => (s, [])
  | e :: es =>
      let h := step env s e
      let t := run env h.1 es
      (t.1, h.2 ++ t.2)

/-- Network dispatches among the effects. -/
def requestsOf (outs : List Out) : List SearchRequest :=
  outs.filterMap (fun o => match o with | Out.request r => some r | _ => none)

/-- Navigations among the effects. -/
def navigationsOf (outs : List Out) : List String :=
  outs.filterMap (fun o => match o with | Out.navigate h => some h | _ => none)

/-- A concrete environment: the library docs site, no page context. -/
def env0 : Env := { isMotionEnv := false, pageTitle := none }

/-! ### Helper lemmas about the effect pass -/

theorem runEffects_noop (env : Env) {pre post : SearchState}
    (h1 : pre.isOpen = post.isOpen) (h2 : isSuggesting pre = isSuggesting post) :
    runEffects env pre post = post := by
  simp [runEffects, openEffectPass, h1, h2]

theorem runEffects_self (env : Env) (s : SearchState) : runEffects env s s = s :=
  runEffects_noop env rfl rfl

theorem closeEffect_fields (env : Env) (s : SearchState) :
    (closeEffect env s).value = s.value ∧ (closeEffect env s).results = s.results ∧
    (closeEffect env s).pending = s.pending ∧ (closeEffect env s).isOpen = s.isOpen :=
  ⟨rfl, rfl, rfl, rfl⟩

theorem suggestingEffect_fields (env : Env) (s : SearchState) :
    (suggestingEffect env s).value = s.value ∧ (suggestingEffect env s).results = s.results ∧
    (suggestingEffect env s).pending = s.pending ∧ (suggestingEffect env s).isOpen = s.isOpen := by
  unfold suggestingEffect
  split
  · exact ⟨rfl, rfl, rfl, rfl⟩
  · exact ⟨rfl, rfl, rfl, rfl⟩

theorem openEffectPass_fields (env : Env) (pre post : SearchState) :
    (openEffectPass env pre post).value = post.value ∧
    (openEffectPass env pre post).results = post.results ∧
    (openEffectPass env pre post).pending = post.pending ∧
    (openEffectPass env pre post).isOpen = post.isOpen := by
  unfold openEffectPass
  by_cases h1 : pre.isOpen ≠ post.isOpen
  · rw [if_pos h1]
    by_cases h3 : post.isOpen
    · rw [if_pos h3]
      exact ⟨rfl, rfl, rfl, rfl⟩
    · rw [if_neg h3]
      exact closeEffect_fields env post
  · rw [if_neg h1]
    exact ⟨rfl, rfl, rfl, rfl⟩

theorem runEffects_preserve (env : Env) (pre post : SearchState) :
    (runEffects env pre post).value = post.value ∧
    (runEffects env pre post).results = post.results ∧
    (runEffects env pre post).pending = post.pending ∧
    (runEffects env pre post).isOpen = post.isOpen := by
  have ho := openEffectPass_fields env pre post
  have hs := suggestingEffect_fields env (openEffectPass env pre post)
  unfold runEffects
  by_cases h2 : isSuggesting pre ≠ isSuggesting post
  · rw [if_pos h2]
    exact ⟨hs.1.trans ho.1, hs.2.1.trans ho.2.1, hs.2.2.1.trans ho.2.2.1,
      hs.2.2.2.trans ho.2.2.2⟩
  · rw [if_neg h2]
    exact ho

theorem suggestedResults_length (env : Env) : (suggestedResults env).length = 4 := by
  cases h : env.isMotionEnv <;>
    simp [suggestedResults, h, librarySuggestedResults, motionSuggestedResults]

theorem modeOf_eq_of_results_none {s : SearchState} (h : s.results = none) :
    modeOf s = Mode.suggesting := by
  simp [modeOf, isSuggesting, isEmpty, h]

theorem modeOf_eq_of_results_nil {s : SearchState} (h : s.results = some []) :
    modeOf s = Mode.empty := by
  simp [modeOf, isSuggesting, isEmpty, h]

theorem isWordChar_ne_empty {k : String} (hk : isWordChar k = true) : k ≠ "" := by
  intro h
  rw [h] at hk
  exact absurd hk (by decide)

theorem run_cons (env : Env) (s : SearchState) (e : Event) (es : List Event) :
    run env s (e :: es)
      = ((run env (step env s e).1 es).1,
         (step env s e).2 ++ (run env (step env s e).1 es).2) := rfl

theorem run_append (env : Env) :
    ∀ (es1 : List Event) (s : SearchState) (es2 : List Event),
      run env s (es1 ++ es2)
        = ((run env (run env s es1).1 es2).1,
           (run env s es1).2 ++ (run env (run env s es1).1 es2).2)
  | [], s, es2 => by simp [run]
  | e :: es1, s, es2 => by
      simp only [List.cons_append, run_cons, run_append env es1 (step env s e).1 es2,
        List.append_assoc]

theorem step_timer_noop (env : Env) (s : SearchState) (now : Nat)
    (h : ∀ d q, s.pending = some (d, q) → now < d) :
    step env s (Event.timer now) = (s, []) := by
  cases hp : s.pending with
  | none => simp [step, handleEvent, hp, runEffects_self]
  | some dq =>
      have hd : now < dq.1 := h dq.1 dq.2 (by rw [hp])
      have hnle : ¬ dq.1 ≤ now := by omega
      simp [step, handleEvent, hp, hnle, runEffects_self]

theorem step_timer_fire (env : Env) (s : SearchState) (d : Nat) (q : String) (now : Nat)
    (hp : s.pending = some (d, q)) (hd : d ≤ now) :
    step env s (Event.timer now) = ({ s with pending := none }, [Out.request (mkRequest env q)]) := by
  have hno : runEffects env s { s with pending := none } = { s with pending := none } :=
    runEffects_noop env rfl rfl
  simp [step, handleEvent, hp, hd, hno]

theorem step_change_nonempty (env : Env) (s : SearchState) (now : Nat) (v : String) (h : v ≠ "") :
    step env s (Event.change now v)
      = ({ s with value := v, pending := some (now + debounceWait, v) }, []) := by
  have hh : handleChange now v s
      = { s with value := v, pending := some (now + debounceWait, v) } := by
    simp [handleChange, h]
  have hno : runEffects env s { s with value := v, pending := some (now + debounceWait, v) }
      = { s with value := v, pending := some (now + debounceWait, v) } :=
    runEffects_noop env rfl rfl
  simp [step, handleEvent, hh, hno]

/-! ### C1 — stale responses -/

/-- A one-hit payload distinguishing the first request. -/
def rA : SearchResult :=
  { type := "page", library := "library", page := "A", title := "a", description := "",
    href := "/a/" }

/-- A one-hit payload distinguishing the second request. -/
def rB : SearchResult :=
  { type := "page", library := "library", page := "B", title := "b", description := "",
    href := "/b/" }

/-- Request A is dispatched (debounce fires at 200), then request B (fires at
500); the response of B arrives first and the response of A arrives last. -/
def c1Trace : List Event :=
  [Event.focus, Event.change 0 ("a"), Event.timer 200, Event.change 300 ("ab"),
   Event.timer 500, Event.response (Except.ok [rB]), Event.response (Except.ok [rA])]

/-- C1 counterexample: request A precedes request B, the response of A
arrives after the response of B, yet the stored and displayed results equal
the results of A, not of B — the component carries no token and stores every
response unconditionally, so the claim fails. -/
theorem c1_counterexample :
    requestsOf (run env0 initialState c1Trace).2
        = [mkRequest env0 ("a"), mkRequest env0 ("ab")] ∧
    (run env0 initialState c1Trace).1.results = some [rA] ∧
    indexedResults (run env0 initialState c1Trace).1 = [rA] ∧
    rA ≠ rB := by
  decide

/-- C1 amended: the `search` callback stores every arriving response with no
token check, so the last response to arrive always becomes the stored and
displayed results, regardless of dispatch order: after two successive
arrivals the stored results are the later arrival. -/
theorem c1_amended (env : Env) (s : SearchState) (hitsB hitsA : List SearchResult) :
    (step env s (Event.response (Except.ok hitsA))).1.results = some hitsA ∧
    (run env s [Event.response (Except.ok hitsB), Event.response (Except.ok hitsA)]).1.results
      = some hitsA := by
  constructor
  · have h := (runEffects_preserve env s { s with results := some hitsA }).2.1
    simpa [step, handleEvent] using h
  · rw [run_cons, run_cons]
    show (run env _ []).1.results = some hitsA
    rw [run]
    have h := (runEffects_preserve env (step env s (Event.response (Except.ok hitsB))).1
      { (step env s (Event.response (Except.ok hitsB))).1 with results := some hitsA }).2.1
    simpa [step, handleEvent] using h

/-! ### C3 — stale selection index after a results replacement -/

/-- A sample result with a given title (all in one (library, page) bucket). -/
def mkRes (t : String) : SearchResult :=
  { type := "page", library := "library", page := "P", title := t, description := "",
    href := "/x/" }

def fiveResults : List SearchResult :=
  [mkRes ("r1"), mkRes ("r2"), mkRes ("r3"), mkRes ("r4"), mkRes ("r5")]

def twoResults : List SearchResult :=
  [mkRes ("s1"), mkRes ("s2")]

def arrowDown : Event := Event.key 250 { key := "ArrowDown" } false

/-- Open, search, receive five results, move the cursor to the last result,
search again, receive two results. -/
def c3Trace : List Event :=
  [Event.focus, Event.change 0 ("aaaa"), Event.timer 200,
   Event.response (Except.ok fiveResults),
   arrowDown, arrowDown, arrowDown, arrowDown,
   Event.change 300 ("aaaab"), Event.timer 500,
   Event.response (Except.ok twoResults)]

/-- C3, evaluated at the failing input: the active results list is replaced
by a different, shorter list while the mode stays `Showing`, the
`[isSuggesting]` effect does not fire, and the results cursor is left at
index 4 — past the end of the new two-element list — instead of being reset
to 0 in the same update. -/
theorem c3_failing_trace :
    indexedResults (run env0 initialState c3Trace).1 = twoResults ∧
    twoResults ≠ fiveResults ∧
    (run env0 initialState c3Trace).1.resultIndex = 4 ∧
    (indexedResults (run env0 initialState c3Trace).1).length = 2 ∧
    (indexedResults (run env0 initialState c3Trace).1).length
      ≤ (run env0 initialState c3Trace).1.resultIndex := by
  decide

/-! ### C4 — Enter in Empty mode -/

/-- Open, type a query that resolves to zero results. -/
def c4Trace : List Event :=
  [Event.focus, Event.change 0 ("zzz"), Event.timer 200, Event.response (Except.ok [])]

/-- C4 counterexample: with the overlay in `Empty` mode (non-empty query,
zero results, empty results list), pressing Enter is not a no-op — the
suggestions cursor is active and the component navigates to the selected
static suggestion. -/
theorem c4_counterexample :
    modeOf (run env0 initialState c4Trace).1 = Mode.empty ∧
    indexedResults (run env0 initialState c4Trace).1 = [] ∧
    navigationsOf (step env0 (run env0 initialState c4Trace).1
        (Event.key 300 { key := "Enter" } false)).2
      = [("/api/frame/#animationprops.animate")] := by
  decide

/-- C4 amended: whenever the overlay is open and suggesting (which includes
`Empty` mode), Enter closes the overlay and navigates to the selected
suggested result — the active list is the non-empty static suggestion list,
never an empty one, so Enter always navigates. -/
theorem c4_amended (env : Env) (s : SearchState) (now : Nat)
    (hopen : s.isOpen = true) (hsug : isSuggesting s = true) :
    (step env s (Event.key now { key := "Enter" } false)).2
        = [Out.navigate (selectedSuggestedResult env s).href] ∧
    (step env s (Event.key now { key := "Enter" } false)).1.isOpen = false := by
  have hpost := (runEffects_preserve env s { s with isOpen := false }).2.2.2
  constructor
  · simp [step, handleEvent, hopen, hsug]
  · simpa [step, handleEvent, hopen, hsug] using hpost

/-- Open overlay on a fresh state (no stored results, so suggesting). -/
def openSuggestState : SearchState := { initialState with isOpen := true }

/-- C4 witness: the amended behaviour at a concrete suggesting state. -/
theorem c4_witness :
    openSuggestState.isOpen = true ∧ isSuggesting openSuggestState = true ∧
    ((step env0 openSuggestState (Event.key 0 { key := "Enter" } false)).2
        = [Out.navigate (selectedSuggestedResult env0 openSuggestState).href] ∧
     (step env0 openSuggestState (Event.key 0 { key := "Enter" } false)).1.isOpen = false) :=
  ⟨rfl, rfl, c4_amended env0 openSuggestState 0 rfl rfl⟩

/-! ### C5 — closing the overlay -/

/-- Open, receive five results, move the cursor to the last result, resolve
the next query to zero results (Empty mode), then click outside. -/
def c5Trace : List Event :=
  [Event.focus, Event.change 0 ("aaaa"), Event.timer 200,
   Event.response (Except.ok fiveResults),
   arrowDown, arrowDown, arrowDown, arrowDown,
   Event.change 300 ("zzz"), Event.timer 500,
   Event.response (Except.ok []),
   Event.clickOutside]

/-- C5 counterexample: an outside click from Empty mode closes the overlay
but refutes both halves of the claim at once — the query text survives the
close (`value` is still the typed string, not the empty string), and the
results cursor is left at index 4 rather than reset to 0, because the
cursor `set(0)` call of the close effect is a silent no-op on the
now-empty results list. -/
theorem c5_counterexample :
    (run env0 initialState c5Trace).1.isOpen = false ∧
    (run env0 initialState c5Trace).1.value = "zzz" ∧
    ("zzz" : String) ≠ "" ∧
    (run env0 initialState c5Trace).1.resultIndex = 4 ∧
    (run env0 initialState c5Trace).1.suggestedIndex = 0 := by
  decide

theorem runEffects_close (env : Env) (s : SearchState) (hopen : s.isOpen = true) :
    runEffects env s { s with isOpen := false }
      = closeEffect env { s with isOpen := false } := by
  have h2 : isSuggesting { s with isOpen := false } = isSuggesting s := rfl
  simp [runEffects, openEffectPass, hopen, h2]

theorem closeEffect_suggested (env : Env) (s : SearchState) :
    (closeEffect env s).suggestedIndex = 0 := by
  have h4 : 0 < (suggestedResults env).length := by
    rw [suggestedResults_length]
    decide
  simp [closeEffect, cursorSet, h4]

theorem closeEffect_result_pos (env : Env) (s : SearchState)
    (hres : indexedResults s ≠ []) : (closeEffect env s).resultIndex = 0 := by
  have h1 : 0 < (indexedResults s).length := List.length_pos.2 hres
  simp [closeEffect, cursorSet, h1]

theorem closeEffect_result_nil (env : Env) (s : SearchState)
    (hres : indexedResults s = []) : (closeEffect env s).resultIndex = s.resultIndex := by
  have h1 : ¬ 0 < (indexedResults s).length := by
    rw [hres]
    decide
  simp [closeEffect, cursorSet, h1]

/-- C5 amended: on every transition from any open state to Closed (outside
click or Escape) the overlay closes, the suggestions cursor is reset to
index 0, and the query text is retained rather than cleared; both cursor
`set(0)` calls run, so the results cursor is reset to 0 whenever the
results list is non-empty, while on an empty results list `set(0)` is a
silent no-op and the cursor keeps its index. -/
theorem c5_amended (env : Env) (s : SearchState) (now : Nat) (hopen : s.isOpen = true) :
    ((step env s Event.clickOutside).1.isOpen = false ∧
     (step env s Event.clickOutside).1.suggestedIndex = 0 ∧
     (step env s Event.clickOutside).1.value = s.value ∧
     (indexedResults s ≠ [] → (step env s Event.clickOutside).1.resultIndex = 0) ∧
     (indexedResults s = [] →
       (step env s Event.clickOutside).1.resultIndex = s.resultIndex)) ∧
    ((step env s (Event.key now { key := "Escape" } false)).1.isOpen = false ∧
     (step env s (Event.key now { key := "Escape" } false)).1.suggestedIndex = 0 ∧
     (step env s (Event.key now { key := "Escape" } false)).1.value = s.value ∧
     (indexedResults s ≠ [] →
       (step env s (Event.key now { key := "Escape" } false)).1.resultIndex = 0) ∧
     (indexedResults s = [] →
       (step env s (Event.key now { key := "Escape" } false)).1.resultIndex
         = s.resultIndex)) := by
  have hflds := closeEffect_fields env { s with isOpen := false }
  have key1 : (step env s Event.clickOutside).1
      = closeEffect env { s with isOpen := false } := by
    simp [step, handleEvent, runEffects_close env s hopen]
  have key2 : (step env s (Event.key now { key := "Escape" } false)).1
      = closeEffect env { s with isOpen := false } := by
    simp [step, handleEvent, hopen, runEffects_close env s hopen]
  refine ⟨⟨?_, ?_, ?_, ?_, ?_⟩, ⟨?_, ?_, ?_, ?_, ?_⟩⟩
  · rw [key1]; exact hflds.2.2.2
  · rw [key1]; exact closeEffect_suggested env _
  · rw [key1]; exact hflds.1
  · intro hres
    rw [key1]
    exact closeEffect_result_pos env _ hres
  · intro hres
    rw [key1]
    exact closeEffect_result_nil env _ hres
  · rw [key2]; exact hflds.2.2.2
  · rw [key2]; exact closeEffect_suggested env _
  · rw [key2]; exact hflds.1
  · intro hres
    rw [key2]
    exact closeEffect_result_pos env _ hres
  · intro hres
    rw [key2]
    exact closeEffect_result_nil env _ hres

/-- Open overlay showing one stored result. -/
def openShowingState : SearchState :=
  { value := "a", isOpen := true, results := some [rA], resultIndex := 0,
    suggestedIndex := 0, pending := none }

/-- C5 witness: the amended close behaviour at a concrete open state. -/
theorem c5_witness :
    openShowingState.isOpen = true ∧
    (((step env0 openShowingState Event.clickOutside).1.isOpen = false ∧
      (step env0 openShowingState Event.clickOutside).1.suggestedIndex = 0 ∧
      (step env0 openShowingState Event.clickOutside).1.value = openShowingState.value ∧
      (indexedResults openShowingState ≠ [] →
        (step env0 openShowingState Event.clickOutside).1.resultIndex = 0) ∧
      (indexedResults openShowingState = [] →
        (step env0 openShowingState Event.clickOutside).1.resultIndex
          = openShowingState.resultIndex)) ∧
     ((step env0 openShowingState (Event.key 7 { key := "Escape" } false)).1.isOpen = false ∧
      (step env0 openShowingState (Event.key 7 { key := "Escape" } false)).1.suggestedIndex
        = 0 ∧
      (step env0 openShowingState (Event.key 7 { key := "Escape" } false)).1.value
        = openShowingState.value ∧
      (indexedResults openShowingState ≠ [] →
        (step env0 openShowingState (Event.key 7 { key := "Escape" } false)).1.resultIndex
          = 0) ∧
      (indexedResults openShowingState = [] →
        (step env0 openShowingState (Event.key 7 { key := "Escape" } false)).1.resultIndex
          = openShowingState.resultIndex))) :=
  ⟨rfl, c5_amended env0 openShowingState 7 rfl⟩

/-! ### C7 — empty query -/

/-- C7: calling `handleChange` with the empty string issues no network
request, cancels the pending debounce timer, clears the stored results, and
the mode is `Suggesting` — all synchronously within the step. -/
theorem c7_empty_query (env : Env) (s : SearchState) (now : Nat) :
    (step env s (Event.change now (""))).2 = [] ∧
    (step env s (Event.change now (""))).1.results = none ∧
    (step env s (Event.change now (""))).1.pending = none ∧
    (step env s (Event.change now (""))).1.value = "" ∧
    modeOf (step env s (Event.change now (""))).1 = Mode.suggesting := by
  have hh : handleChange now ("") s
      = { s with value := "", results := none, pending := none } := by
    simp [handleChange]
  have hp := runEffects_preserve env s { s with value := "", results := none, pending := none }
  have hstep : (step env s (Event.change now (""))).1
      = runEffects env s { s with value := "", results := none, pending := none } := by
    simp [step, handleEvent, hh]
  refine ⟨rfl, ?_, ?_, ?_, ?_⟩
  · rw [hstep]; exact hp.2.1
  · rw [hstep]; exact hp.2.2.1
  · rw [hstep]; exact hp.1
  · rw [hstep]
    exact modeOf_eq_of_results_none hp.2.1

/-! ### C8 — service failure -/

/-- C8: a failed response is treated as zero results — the results become the
empty list and the mode becomes `Empty` — the failure is reported to the
diagnostics sink (`console.error`), and the overlay state stays operable:
`isOpen` and the query text are untouched and no other effect is emitted. -/
theorem c8_failure_degrades (env : Env) (s : SearchState) :
    (step env s (Event.response (Except.error ()))).2 = [Out.reportError] ∧
    (step env s (Event.response (Except.error ()))).1.results = some [] ∧
    modeOf (step env s (Event.response (Except.error ()))).1 = Mode.empty ∧
    (step env s (Event.response (Except.error ()))).1.isOpen = s.isOpen ∧
    (step env s (Event.response (Except.error ()))).1.value = s.value := by
  have hp := runEffects_preserve env s { s with results := some [] }
  have hstep : (step env s (Event.response (Except.error ()))).1
      = runEffects env s { s with results := some [] } := by
    simp [step, handleEvent]
  refine ⟨rfl, ?_, ?_, ?_, ?_⟩
  · rw [hstep]; exact hp.2.1
  · rw [hstep]; exact modeOf_eq_of_results_nil hp.2.1
  · rw [hstep]; exact hp.2.2.2
  · rw [hstep]; exact hp.1

/-! ### C9 — opening the overlay from Closed -/

/-- Open, search, receive five results, click outside (which keeps the
stored results and the query), then focus again from Closed. -/
def c9FocusTrace : List Event :=
  [Event.focus, Event.change 0 ("aaaa"), Event.timer 200,
   Event.response (Except.ok fiveResults), Event.clickOutside, Event.focus]

/-- C9 counterexample: two concrete divergences from the claim.  Pressing the
'/' key while the overlay is closed and nothing is focused does nothing —
'/' does not match the `/^\w$/` test of `handleKey`, so the overlay stays
closed.  And a focus event from Closed does not always land in
`Open.Suggesting`: with results of an earlier search still stored (a close
clears nothing), the reopened overlay is in `Showing` mode. -/
theorem c9_counterexample :
    initialState.isOpen = false ∧
    step env0 initialState (Event.key 0 { key := "/" } true) = (initialState, []) ∧
    (run env0 initialState (List.take 5 c9FocusTrace)).1.isOpen = false ∧
    (run env0 initialState c9FocusTrace).1.isOpen = true ∧
    modeOf (run env0 initialState c9FocusTrace).1 = Mode.showing ∧
    Mode.showing ≠ Mode.suggesting := by
  refine ⟨rfl, by decide, by decide, by decide, by decide, by decide⟩

/-- C9 amended: from any `Closed` state, a focus event opens the overlay, and
a single word-character keypress (letter, digit or underscore — the `/^\w$/`
test; '/' is not such a character) with no modifiers while no other element
holds focus opens the overlay with that character forwarded as the query
text, scheduling its debounced search; in either case the overlay opens in
`Suggesting` when no results are stored (and in `Showing` when a previous
search left stored results, as the counterexample shows). -/
theorem c9_amended (env : Env) (s : SearchState) (now : Nat) (k : String)
    (hclosed : s.isOpen = false) (hk : isWordChar k = true) :
    ((step env s Event.focus).1.isOpen = true ∧
      (s.results = none → isSuggesting (step env s Event.focus).1 = true)) ∧
    ((step env s (Event.key now { key := k } true)).1.isOpen = true ∧
      (step env s (Event.key now { key := k } true)).1.value = k ∧
      (s.results = none →
        isSuggesting (step env s (Event.key now { key := k } true)).1 = true) ∧
      (step env s (Event.key now { key := k } true)).1.pending
        = some (now + debounceWait, k)) := by
  have hkne : k ≠ "" := isWordChar_ne_empty hk
  have hopen : runEffects env s { s with isOpen := true } = { s with isOpen := true } := by
    have h2 : isSuggesting { s with isOpen := true } = isSuggesting s := rfl
    simp [runEffects, openEffectPass, hclosed, h2]
  have hh : handleChange now k s
      = { s with value := k, pending := some (now + debounceWait, k) } := by
    simp [handleChange, hkne]
  have hkeystate : (step env s (Event.key now { key := k } true)).1
      = { s with value := k, pending := some (now + debounceWait, k), isOpen := true } := by
    have h2 : isSuggesting
        ({ s with value := k, pending := some (now + debounceWait, k), isOpen := true })
        = isSuggesting s := rfl
    simp [step, handleEvent, hclosed, hk, hh, runEffects, openEffectPass, h2]
  have hsugnone : ∀ t : SearchState, t.results = none → isSuggesting t = true := by
    intro t ht
    simp [isSuggesting, ht]
  have hfocus1 : (step env s Event.focus).1 = runEffects env s { s with isOpen := true } := by
    simp [step, handleEvent]
  refine ⟨⟨?_, ?_⟩, ?_, ?_, ?_, ?_⟩
  · rw [hfocus1, hopen]
  · intro hres
    rw [hfocus1, hopen]
    exact hsugnone _ hres
  · rw [hkeystate]
  · rw [hkeystate]
  · intro hres
    rw [hkeystate]
    exact hsugnone _ hres
  · rw [hkeystate]

/-- C9 witness: the amended opening behaviour at the initial state with the
character d. -/
theorem c9_witness :
    initialState.isOpen = false ∧ isWordChar ("d") = true ∧
    (((step env0 initialState Event.focus).1.isOpen = true ∧
       (initialState.results = none →
         isSuggesting (step env0 initialState Event.focus).1 = true)) ∧
     ((step env0 initialState (Event.key 0 { key := ("d") } true)).1.isOpen = true ∧
       (step env0 initialState (Event.key 0 { key := ("d") } true)).1.value = "d" ∧
       (initialState.results = none →
         isSuggesting (step env0 initialState (Event.key 0 { key := ("d") } true)).1
           = true) ∧
       (step env0 initialState (Event.key 0 { key := ("d") } true)).1.pending
         = some (0 + debounceWait, "d"))) :=
  ⟨rfl, by decide, c9_amended env0 initialState 0 ("d") rfl (by decide)⟩

/-! ### C10 — the selection cursor contract -/

/-- C10: the cursor is clamped and non-wrapping — for `n > 0`, `next` yields
`min (index + 1) (n - 1)` and stays below `n`; ten `next` steps on a
five-element list starting at 0 end at index 4; `previous` is `max (i-1) 0`;
and for `n = 0` the operations are total no-ops that keep the index at 0. -/
theorem c10_cursor_contract :
    (∀ n i, 0 < n → cursorNext n i = min (i + 1) (n - 1) ∧ cursorNext n i < n) ∧
    Nat.iterate (cursorNext 5) 10 0 = 4 ∧
    (∀ i, cursorPrevious (i + 1) = i ∧ cursorPrevious 0 = 0) ∧
    (cursorNext 0 0 = 0 ∧ cursorPrevious 0 = 0 ∧ ∀ j, cursorSet 0 0 j = 0) := by
  refine ⟨?_, by decide, fun i => ⟨rfl, rfl⟩, rfl, rfl, fun j => rfl⟩
  intro n i h
  rw [cursorNext, if_pos h]
  exact ⟨rfl, Nat.lt_of_le_of_lt (Nat.min_le_right _ _) (Nat.sub_lt h Nat.one_pos)⟩

/-- C10 witness: the clamp at a concrete positive length. -/
theorem c10_witness : cursorNext 5 9 = min 10 4 ∧ cursorNext 5 9 < 5 :=
  c10_cursor_contract.1 5 9 (by decide)

/-! ### C6 — debouncing -/

/-- A burst of `setQuery` calls: each call carries a non-empty value, times
are ordered, and every successor arrives within the debounce window of its
predecessor. -/
def fastChain (w : Nat) : List (Nat × String) → Bool
  | [] => true
  | [c] => c.2 != ""
  | c1 :: c2 :: rest =>
      (c1.2 != "") && decide (c1.1 ≤ c2.1) && decide (c2.1 < c1.1 + w)
        && fastChain w (c2 :: rest)

theorem fastChain_singleton (w : Nat) (c : Nat × String) :
    fastChain w [c] = (c.2 != "") := rfl

theorem fastChain_cons_cons (w : Nat) (c1 c2 : Nat × String) (rest : List (Nat × String)) :
    fastChain w (c1 :: c2 :: rest)
      = ((c1.2 != "") && decide (c1.1 ≤ c2.1) && decide (c2.1 < c1.1 + w)
          && fastChain w (c2 :: rest)) := rfl

/-- The event schedule of a call burst: before each call, time passes to the
call instant (firing the debounce timer if its deadline has been reached),
then the call runs. -/
def burstEvents : List (Nat × String) → List Event
  | [] => []
  | c :: rest => Event.timer c.1 :: Event.change c.1 c.2 :: burstEvents rest

theorem run_burst (env : Env) :
    ∀ (calls : List (Nat × String)) (s : SearchState) (tn : Nat) (vn : String),
      fastChain debounceWait calls = true →
      calls.getLast? = some (tn, vn) →
      (∀ d q, s.pending = some (d, q) → calls.headI.1 < d) →
      (run env s (burstEvents calls)).2 = [] ∧
      (run env s (burstEvents calls)).1.pending = some (tn + debounceWait, vn)
  | [], s, tn, vn, hchain, hlast, hpend => by simp at hlast
  | [c], s, tn, vn, hchain, hlast, hpend => by
      have hc : c = (tn, vn) := by simpa using hlast
      subst hc
      have hv : (tn, vn).2 ≠ "" := by
        rw [fastChain_singleton] at hchain
        simpa using hchain
      have h1 : step env s (Event.timer (tn, vn).1) = (s, []) :=
        step_timer_noop env s (tn, vn).1 (fun d q hdq => hpend d q hdq)
      have h2 := step_change_nonempty env s (tn, vn).1 (tn, vn).2 hv
      simp only [burstEvents]
      rw [run_cons, h1]
      rw [run_cons, h2]
      simp [run]
  | c1 :: c2 :: rest, s, tn, vn, hchain, hlast, hpend => by
      rw [fastChain_cons_cons] at hchain
      simp only [Bool.and_eq_true, bne_iff_ne, decide_eq_true_eq] at hchain
      obtain ⟨⟨⟨hv1, h12⟩, hlt⟩, hch⟩ := hchain
      have h1 : step env s (Event.timer c1.1) = (s, []) :=
        step_timer_noop env s c1.1 (fun d q hdq => hpend d q hdq)
      have h2 := step_change_nonempty env s c1.1 c1.2 hv1
      have hlast2 : (c2 :: rest).getLast? = some (tn, vn) := by
        simpa [List.getLast?_cons_cons] using hlast
      have hpend2 : ∀ d q,
          (some (c1.1 + debounceWait, c1.2) : Option (Nat × String)) = some (d, q) →
            (c2 :: rest).headI.1 < d := by
        intro d q hdq
        simp only [Option.some.injEq, Prod.mk.injEq] at hdq
        obtain ⟨hd, hq⟩ := hdq
        subst hd
        exact hlt
      have ih := run_burst env (c2 :: rest)
        { s with value := c1.2, pending := some (c1.1 + debounceWait, c1.2) }
        tn vn hch hlast2 hpend2
      simp only [burstEvents]
      rw [run_cons, h1]
      rw [run_cons, h2]
      refine ⟨?_, ?_⟩
      · simpa [burstEvents] using ih.1
      · simpa [burstEvents] using ih.2

/-- C6: for every burst of `setQuery` calls with non-empty text in which each
call lands inside the debounce window of its predecessor, only the request
for the final call is ever dispatched — every earlier pending timer is
superseded, and after the window finally elapses exactly the last value goes
to the search service. -/
theorem c6_debounce_last_wins (env : Env) (s : SearchState) (calls : List (Nat × String))
    (tn : Nat) (vn : String)
    (hchain : fastChain debounceWait calls = true)
    (hlast : calls.getLast? = some (tn, vn))
    (hpend : s.pending = none) :
    requestsOf (run env s (burstEvents calls ++ [Event.timer (tn + debounceWait)])).2
      = [mkRequest env vn] := by
  have hb := run_burst env calls s tn vn hchain hlast
    (by intro d q hdq; rw [hpend] at hdq; cases hdq)
  rw [run_append]
  have hfire := step_timer_fire env (run env s (burstEvents calls)).1
    (tn + debounceWait) vn (tn + debounceWait) hb.2 (Nat.le_refl _)
  rw [run_cons, hfire]
  simp [run, requestsOf, hb.1]

/-- C6 witness: a concrete two-call burst dispatches exactly one request, for
the final value. -/
theorem c6_witness :
    fastChain debounceWait [((0 : Nat), ("d" : String)), (100, ("dr"))] = true ∧
    [((0 : Nat), ("d" : String)), (100, ("dr"))].getLast? = some (100, ("dr")) ∧
    initialState.pending = none ∧
    requestsOf (run env0 initialState
        (burstEvents [((0 : Nat), ("d" : String)), (100, ("dr"))]
          ++ [Event.timer (100 + debounceWait)])).2
      = [mkRequest env0 ("dr")] :=
  ⟨by decide, by decide, rfl,
   c6_debounce_last_wins env0 initialState [((0 : Nat), ("d" : String)), (100, ("dr"))]
     100 ("dr") (by decide) (by decide) rfl⟩

end ApiDocs
